import Mathlib

/-!
Verification of the InternDashboard core pipeline: the spreadsheet grid parser
(`BalthazarGSheetConnector.process_data` in `gsheet_connector.py`) and the series
normalizer (the goal/outcome array computation of
`BalthazarVisualizer.create_metric_comparison` in `dashboard_visualizer.py`).

Cells arrive from the spreadsheet transport as strings, so a grid is modelled as
`List (List String)`. Numeric cell values are modelled as rationals (`ℚ`):
every claim under study concerns finite decimal literals, for which Python's
binary floats and `ℚ` agree on equality with the small constants involved.
-/

namespace InternDash

/-- One parsed observation, mirroring the record dict
`{"Date": int, "Category": str, "Type": str, "Value": float}` built by
`process_data` (gsheet_connector.py lines 205-210). -/
structure Record where
  week : Int
  category : String
  type : String
  value : ℚ
deriving DecidableEq

/-- A fetched spreadsheet grid: a possibly jagged list of rows of cell strings. -/
abbrev Grid := List (List String)

/-- Decimal digit run to a natural number. -/
def digitsToNat (ds : List Char) : Nat :=
  ds.foldl (fun a c => a * 10 + (c.toNat - 48)) 0

/-- Models Python `str.strip()`: drop leading and trailing whitespace (the
ASCII whitespace forms that occur in sheet cells; Python also strips rarer
Unicode spaces). -/
def pyStrip (s : String) : String :=
  String.mk (((s.data.dropWhile Char.isWhitespace).reverse.dropWhile Char.isWhitespace).reverse)

/-- Models Python `int(s)` on decimal literals (as used on header cells after
`str(cell).strip()`): optional sign followed by a nonempty digit run; anything
else raises `ValueError`, modelled as `none`. Digit-group underscores and
non-ASCII digits are outside the sheet's data domain and are not modelled. -/
def pyInt (s : String) : Option Int :=
  let core : List Char → Option Nat := fun ds =>
    if ds ≠ [] ∧ ds.all Char.isDigit then some (digitsToNat ds) else none
  match (pyStrip s).data with
  | '+' :: rest => (core rest).map Int.ofNat
  | '-' :: rest => (core rest).map (fun n => -(n : Int))
  | rest => (core rest).map Int.ofNat

/-- Optional exponent tail of a Python float literal (`e`/`E`, optional sign,
nonempty digit run consuming the rest of the string). The mantissa is carried
as a numerator/denominator pair of naturals so that the final value is a
single kernel-reducible `mkRat`. -/
def pyExpTail (num den : Nat) : List Char → Option (Nat × Nat)
  | [] => some (num, den)
  | c :: rest =>
    if c = 'e' ∨ c = 'E' then
      let signed : Bool × List Char :=
        match rest with
        | '+' :: r => (true, r)
        | '-' :: r => (false, r)
        | r => (true, r)
      let ds := signed.2.takeWhile Char.isDigit
      let tail := signed.2.dropWhile Char.isDigit
      if ds = [] ∨ tail ≠ [] then none
      else if signed.1 then some (num * 10 ^ digitsToNat ds, den)
      else some (num, den * 10 ^ digitsToNat ds)
    else none

/-- Unsigned part of a Python float literal as a numerator/denominator pair:
digits, optional fraction, optional exponent; at least one digit before the
exponent. -/
def pyFloatCore (cs : List Char) : Option (Nat × Nat) :=
  let ip := cs.takeWhile Char.isDigit
  let rest1 := cs.dropWhile Char.isDigit
  match rest1 with
  | '.' :: rest2 =>
    let fp := rest2.takeWhile Char.isDigit
    let rest3 := rest2.dropWhile Char.isDigit
    if ip = [] ∧ fp = [] then none
    else pyExpTail (digitsToNat ip * 10 ^ fp.length + digitsToNat fp) (10 ^ fp.length) rest3
  | _ =>
    if ip = [] then none else pyExpTail (digitsToNat ip) 1 rest1

/-- Models Python `float(s)` on finite decimal literals: strip whitespace,
optional sign, digits / fraction / exponent, yielding the literal's exact
rational value. The named non-finite forms (`inf`, `nan`) and digit-group
underscores are outside the data domain of this sheet and are not modelled;
on every string the pipeline feeds to `float` after its comma/space
normalization this agrees with Python. -/
def pyFloat (s : String) : Option ℚ :=
  match (pyStrip s).data with
  | '+' :: rest => (pyFloatCore rest).map fun p => mkRat p.1 p.2
  | '-' :: rest => (pyFloatCore rest).map fun p => mkRat (-(p.1 : Int)) p.2
  | rest => (pyFloatCore rest).map fun p => mkRat p.1 p.2

/-- Fuel-driven replace-all on character lists (the fuel is an upper bound on
the number of steps; each step consumes at least one character when the
pattern is nonempty, so `fuel = length` suffices). -/
def replaceAux (pat rep : List Char) : Nat → List Char → List Char
  | 0, l => l
  | _, [] => []
  | fuel + 1, c :: rest =>
    if pat.isPrefixOf (c :: rest) then rep ++ replaceAux pat rep fuel ((c :: rest).drop pat.length)
    else c :: replaceAux pat rep fuel rest

/-- Models Python `str.replace(pat, rep)` for a nonempty pattern. -/
def pyReplace (s pat rep : String) : String :=
  String.mk (replaceAux pat.data rep.data s.data.length s.data)

/-- The per-value normalization `value.replace(',', '.').replace(' ', '')`
(gsheet_connector.py line 200). -/
def normValue (s : String) : String :=
  pyReplace (pyReplace s "," ".") " " ""

/-- Models `p.data.isPrefixOf s.data`, i.e. Python `s.startswith(p)`. -/
def strStarts (s p : String) : Bool := p.data.isPrefixOf s.data

/-- Contiguous-sublist search underlying `strContains`. -/
def containsAux (sub : List Char) : List Char → Bool
  | [] => sub = []
  | c :: rest => sub.isPrefixOf (c :: rest) || containsAux sub rest

/-- Python `sub in s`: substring containment. -/
def strContains (s sub : String) : Bool := sub.data = [] || containsAux sub.data s.data

/-- One cell of the week-header scan (gsheet_connector.py lines 134-146):
a truthy (nonempty) cell parsing as an `int` in `[1, 53]` yields a week
number, anything else contributes nothing. -/
def weekCell (cell : String) : Option Int :=
  if cell = "" then none
  else (pyInt (pyStrip cell)).bind fun w => if 1 ≤ w ∧ w ≤ 53 then some w else none

/-- Collect `(column, week)` pairs of one row, in column order. -/
def rowWeekPairsAux : List String → Nat → List (Nat × Int)
  | [], _ => []
  | c :: rest, j =>
    (match weekCell c with
     | some w => [(j, w)]
     | none => []) ++ rowWeekPairsAux rest (j + 1)

/-- `potential_weeks` of one row of the header scan. -/
def rowWeekPairs (row : List String) : List (Nat × Int) := rowWeekPairsAux row 0

/-- The week-header search (gsheet_connector.py lines 128-153): scan the first
10 rows; a row with more than 2 cells and at least 2 week-number cells is the
header; the earliest such row wins. -/
def findHeaderAux : List (List String) → Nat → Option (Nat × List (Nat × Int))
  | [], _ => none
  | row :: rest, i =>
    if 2 < row.length ∧ 2 ≤ (rowWeekPairs row).length then some (i, rowWeekPairs row)
    else findHeaderAux rest (i + 1)

/-- `week_row_idx` together with the `(column, week)` pairs, or `none` when no
row of the first 10 qualifies. -/
def findWeekHeader (g : Grid) : Option (Nat × List (Nat × Int)) :=
  findHeaderAux (g.take 10) 0

/-- Reading one value cell (gsheet_connector.py lines 195-213): an empty cell
is skipped; otherwise the cell is comma/space-normalized into `value`, the
literal `"0"` is skipped, and a failing `float` conversion is caught and
skipped. -/
def valCell (cell : String) : Option ℚ :=
  if cell = "" then none
  else if normValue cell = "0" then none
  else pyFloat (normValue cell)

/-- The per-week value loop of one classified data row
(gsheet_connector.py lines 194-213, repeated at 222-241 and 275-294). -/
def cellRecords (pairs : List (Nat × Int)) (rowType category : String)
    (row : List String) : List Record :=
  pairs.flatMap fun cw =>
    if cw.1 < row.length then
      match valCell (row.getD cw.1 "") with
      | some q => [⟨cw.2, category, rowType, q⟩]
      | none => []
    else []

/-- The `known_metrics` list (gsheet_connector.py lines 246-251). -/
def known_metrics : List String :=
  ["Försäljning SEK", "Utgifter SEK", "Resultat SEK",
   "Bokade möten", "Git commits", "Artiklar Hemsida (SEO)",
   "Gratis verktyg hemsida (SEO)", "Skickade E-post",
   "Färdiga moment produktion", "Långa YT videos", "Korta YT videos"]

/-- Row `k` of the grid (`data[k]`), with `[]` for an out-of-range index. -/
def rowAt (g : Grid) (k : Nat) : List String := g.getD k []

/-- The label of a row as the classifier and the adjacency check read it:
`row[1].strip() if row[1] else ""`. -/
def rowLabelOf (row : List String) : String :=
  if row.getD 1 "" = "" then "" else pyStrip (row.getD 1 "")

/-- The label of row `k` of the grid. -/
def labelAt (g : Grid) (k : Nat) : String := rowLabelOf (rowAt g k)

/-- The goal-vs-outcome adjacency inference for unprefixed known-metric rows
(gsheet_connector.py lines 256-268). `j` is the value of `row_idx` at that
point of the loop body, which the source has already incremented past the
current row: the current row has index `j - 1`, so `data[row_idx + 1]` is the
row two past the current one and `data[row_idx - 1]` is the current row
itself. The indices are modelled exactly as written. -/
def inferIsGoal (g : Grid) (j : Nat) (rowLabel : String) : Bool :=
  if j + 1 < g.length ∧ rowAt g (j + 1) ≠ [] ∧ 1 < (rowAt g (j + 1)).length then
    if labelAt g (j + 1) ≠ "" ∧ rowLabel = labelAt g (j + 1) then true
    else if 0 < j ∧ rowAt g (j - 1) ≠ [] ∧ 1 < (rowAt g (j - 1)).length then
      if labelAt g (j - 1) ≠ "" ∧ rowLabel = labelAt g (j - 1) then false else true
    else true
  else true

/-- Processing of one row of the main loop (gsheet_connector.py lines
171-294). `i` is the 0-based index of `row` in the grid; `skipRows` is
`week_row_idx + 1`; the guard reflects `row_idx <= skip_rows` after the
increment. The source also reads `row[0]` into `category_name` but never uses
it. -/
def rowRecords (g : Grid) (pairs : List (Nat × Int)) (skipRows : Nat)
    (i : Nat) (row : List String) : List Record :=
  if i + 1 ≤ skipRows ∨ row = [] ∨ row.length < 2 then []
  else if rowLabelOf row = "" then []
  else if strStarts (rowLabelOf row) "Mål:" then
    cellRecords pairs "Mål" (pyStrip (pyReplace (rowLabelOf row) "Mål:" "")) row
  else if strStarts (rowLabelOf row) "Utfall:" then
    cellRecords pairs "Utfall" (pyStrip (pyReplace (rowLabelOf row) "Utfall:" "")) row
  else if known_metrics.any (fun m => strContains (rowLabelOf row) m) then
    cellRecords pairs (if inferIsGoal g (i + 1) (rowLabelOf row) then "Mål" else "Utfall")
      (rowLabelOf row) row
  else []

/-- The main `while row_idx < len(data)` loop, walking the rows with their
indices. -/
def processRows (g : Grid) (pairs : List (Nat × Int)) (skipRows : Nat) :
    List (List String) → Nat → List Record
  | [], _ => []
  | row :: rest, i => rowRecords g pairs skipRows i row ++ processRows g pairs skipRows rest (i + 1)

/-- The degraded-mode default mapping (gsheet_connector.py lines 155-163):
`week_cols = range(2, n)` zipped with `week_numbers = range(1, n - 1)` for a
first row of `n` columns. -/
def fallbackPairs (n : Nat) : List (Nat × Int) :=
  (List.range' 2 (n - 2)).zip ((List.range' 1 (n - 2)).map Int.ofNat)

/-- `BalthazarGSheetConnector.process_data` (gsheet_connector.py lines
102-307): locate the week header (falling back to the default column mapping,
or to an empty result when the first row has at most 2 columns), then emit the
records of every row after the header. The surrounding DataFrame construction
is presentation only. -/
def process_data (g : Grid) : List Record :=
  if g.length < 1 then []
  else
    match findWeekHeader g with
    | some hd => processRows g hd.2 (hd.1 + 1) g 0
    | none =>
      if 2 < (rowAt g 0).length then processRows g (fallbackPairs (rowAt g 0).length) 0 g 0
      else []

/-! ## Series normalizer (`dashboard_visualizer.py`) -/

/-- Lexicographic code-point comparison of character lists, the order pandas
uses on string columns. -/
def charListLE : List Char → List Char → Bool
  | [], _ => true
  | _ :: _, [] => false
  | a :: as, b :: bs =>
    if a.toNat < b.toNat then true
    else if b.toNat < a.toNat then false
    else charListLE as bs

/-- String comparison for the sort key. -/
def strLE (a b : String) : Bool := charListLE a.data b.data

/-- The sort key of `prepare_data`'s
`self.data.sort_values(["Week", "Type"])` (dashboard_visualizer.py line 133):
lexicographic on week then type. `sort_values` uses an unstable sort, so the
order among fully equal keys is unspecified in the source; any sort respecting
this relation is a faithful model, and we use insertion sort. -/
def recLE (r s : Record) : Prop :=
  r.week < s.week ∨ (r.week = s.week ∧ strLE r.type s.type = true)

instance : DecidableRel recLE := fun r s =>
  inferInstanceAs (Decidable (r.week < s.week ∨ (r.week = s.week ∧ strLE r.type s.type = true)))

/-- `BalthazarVisualizer.prepare_data` (dashboard_visualizer.py lines
102-159) as it affects the series arrays: sort by week then type. The
`to_numeric`/`dropna` steps are identities here because the model carries
weeks and values as numbers already. -/
def prepare_data (d : List Record) : List Record :=
  d.insertionSort recLE

/-- `list(range(a, b + 1))` on integers. -/
def intRange (a b : Int) : List Int :=
  (List.range (b + 1 - a).toNat).map fun k : Nat => a + (k : Int)

/-- `pd.merge(DataFrame({"Week": weeks}), obs, on="Week", how="left")`
followed by `fillna(0)` on the value column (dashboard_visualizer.py lines
226-229): for every requested week, in order, all matching observations (in
their order), or a single zero-filled entry when none matches. -/
def leftJoinFill (weeks : List Int) (obs : List Record) : List (Int × ℚ) :=
  weeks.flatMap fun w =>
    if obs.filter (fun r => r.week == w) = [] then [(w, 0)]
    else (obs.filter fun r => r.week == w).map fun r => (w, r.value)

/-- The two parallel axis/value array pairs that
`create_metric_comparison` plots. -/
structure Series where
  goal_x : List Int
  goal_y : List ℚ
  outcome_x : List Int
  outcome_y : List ℚ
deriving DecidableEq

/-- `cat_df`: the prepared data filtered to one category
(dashboard_visualizer.py line 184). -/
def catData (data : List Record) (category : String) : List Record :=
  (prepare_data data).filter fun r => r.category == category

/-- `cat_df` after clipping to the requested week range
(dashboard_visualizer.py line 209). -/
def clippedData (data : List Record) (category : String) (a b : Int) : List Record :=
  (catData data category).filter fun r => decide (a ≤ r.week ∧ r.week ≤ b)

/-- `goal_df` (dashboard_visualizer.py line 220). -/
def goalDf (data : List Record) (category : String) (a b : Int) : List Record :=
  (clippedData data category a b).filter fun r => r.type == "Mål"

/-- `outcome_df` (dashboard_visualizer.py line 239). -/
def outcomeDf (data : List Record) (category : String) (a b : Int) : List Record :=
  (clippedData data category a b).filter fun r => r.type == "Utfall"

/-- `goal_x` (dashboard_visualizer.py lines 226-236): the week axis of the
zero-filled goal merge, or empty when the category has no goal rows. -/
def goalX (data : List Record) (category : String) (a b : Int) : List Int :=
  if goalDf data category a b = [] then []
  else (leftJoinFill (intRange a b) (goalDf data category a b)).map Prod.fst

/-- `goal_y` (dashboard_visualizer.py lines 226-236). -/
def goalY (data : List Record) (category : String) (a b : Int) : List ℚ :=
  if goalDf data category a b = [] then []
  else (leftJoinFill (intRange a b) (goalDf data category a b)).map Prod.snd

/-- `outcome_x` (dashboard_visualizer.py lines 239-260): the week axis of the
zero-filled outcome merge; with goals but no outcomes, the goal axis. -/
def outcomeX (data : List Record) (category : String) (a b : Int) : List Int :=
  if outcomeDf data category a b = [] then
    (if goalX data category a b = [] then [] else goalX data category a b)
  else (leftJoinFill (intRange a b) (outcomeDf data category a b)).map Prod.fst

/-- `outcome_y` (dashboard_visualizer.py lines 239-260): with goals but no
outcomes, a zero line over the goal axis. -/
def outcomeY (data : List Record) (category : String) (a b : Int) : List ℚ :=
  if outcomeDf data category a b = [] then
    (if goalX data category a b = [] then []
     else List.replicate (goalX data category a b).length (0 : ℚ))
  else (leftJoinFill (intRange a b) (outcomeDf data category a b)).map Prod.snd

/-- The series computation of `BalthazarVisualizer.create_metric_comparison`
(dashboard_visualizer.py lines 161-260) for an explicit `x_range`: prepare the
data, filter the category (an empty category returns an empty chart, modelled
as empty arrays), clip to the requested week range, and build the goal and
outcome arrays by left-joining each kind onto the full week axis with zero
fill; a category with goals but no outcomes gets a zero outcome line. All
later steps of the source function only draw these arrays. -/
def create_metric_comparison (data : List Record) (category : String)
    (x_range : Int × Int) : Series :=
  if catData data category = [] then ⟨[], [], [], []⟩
  else
    ⟨goalX data category x_range.1 x_range.2,
     goalY data category x_range.1 x_range.2,
     outcomeX data category x_range.1 x_range.2,
     outcomeY data category x_range.1 x_range.2⟩

/-- ASCII plus Swedish letters of Python `str.lower()`, the alphabet the
category names and marker tokens draw from. -/
def lowerChar (c : Char) : Char :=
  if 'A' ≤ c ∧ c ≤ 'Z' then Char.ofNat (c.toNat + 32)
  else if c = 'Å' then 'å' else if c = 'Ä' then 'ä' else if c = 'Ö' then 'ö' else c

/-- Models `category.lower()`. -/
def pyLower (s : String) : String := String.mk (s.data.map lowerChar)

/-- `is_lower_better` (dashboard_visualizer.py line 217): the category name,
lowercased, contains one of the fixed marker tokens. The flag only drives
`ax.invert_yaxis()` and axis labels; it is never used in the series arrays. -/
def is_lower_better (category : String) : Bool :=
  ["lägre", "mindre", "lower", "utgifter"].any fun pat => strContains (pyLower category) pat

/-! ## The category-erased series pipeline

The polarity flag `is_lower_better` never feeds into the series arrays; to
state that, the pipeline is replayed with the category filter erased, giving
a form that depends only on weeks, types and values. -/

/-- The prepared data clipped to the week range, with no category filter. -/
def sortedClipped (d : List Record) (a b : Int) : List Record :=
  (d.insertionSort recLE).filter fun r => decide (a ≤ r.week ∧ r.week ≤ b)

/-- Goal rows of the category-erased pipeline. -/
def goalCore (d : List Record) (a b : Int) : List Record :=
  (sortedClipped d a b).filter fun r => r.type == "Mål"

/-- Outcome rows of the category-erased pipeline. -/
def outcomeCore (d : List Record) (a b : Int) : List Record :=
  (sortedClipped d a b).filter fun r => r.type == "Utfall"

/-- `goal_x` of the category-erased pipeline. -/
def goalXCore (d : List Record) (a b : Int) : List Int :=
  if goalCore d a b = [] then []
  else (leftJoinFill (intRange a b) (goalCore d a b)).map Prod.fst

/-- `goal_y` of the category-erased pipeline. -/
def goalYCore (d : List Record) (a b : Int) : List ℚ :=
  if goalCore d a b = [] then []
  else (leftJoinFill (intRange a b) (goalCore d a b)).map Prod.snd

/-- `outcome_x` of the category-erased pipeline. -/
def outcomeXCore (d : List Record) (a b : Int) : List Int :=
  if outcomeCore d a b = [] then
    (if goalXCore d a b = [] then [] else goalXCore d a b)
  else (leftJoinFill (intRange a b) (outcomeCore d a b)).map Prod.fst

/-- `outcome_y` of the category-erased pipeline. -/
def outcomeYCore (d : List Record) (a b : Int) : List ℚ :=
  if outcomeCore d a b = [] then
    (if goalXCore d a b = [] then []
     else List.replicate (goalXCore d a b).length (0 : ℚ))
  else (leftJoinFill (intRange a b) (outcomeCore d a b)).map Prod.snd

/-- The whole series of the category-erased pipeline. -/
def seriesCore (d : List Record) (xr : Int × Int) : Series :=
  if d.insertionSort recLE = [] then ⟨[], [], [], []⟩
  else
    ⟨goalXCore d xr.1 xr.2, goalYCore d xr.1 xr.2,
     outcomeXCore d xr.1 xr.2, outcomeYCore d xr.1 xr.2⟩

/-! ## Auxiliary definitions for the claims -/

/-- Overwrite cell `(i, j)` of a grid (out-of-range indices leave the grid
unchanged, as does `List.set`). -/
def setCell (g : Grid) (i j : Nat) (b : String) : Grid :=
  g.set i ((rowAt g i).set j b)

/-- The Week-Header Locator selection rule as the amended spec words it: the
first row among the first 10 that has more than 2 cells and yields at least 2
cells parsing as integers in `[1, 53]`, returned with those cells'
`(column, period)` pairs in order of encounter. Stated independently (via
`List.find?` over the enumerated rows) for comparison with `findWeekHeader`. -/
def locate_header_spec (g : Grid) : Option (Nat × List (Nat × Int)) :=
  ((g.take 10).enum.find? fun p =>
      decide (2 < p.2.length) && decide (2 ≤ (rowWeekPairs p.2).length)).map
    fun p => (p.1, rowWeekPairs p.2)

/-- The goal observations of one category clipped to a period range, as the
series pipeline selects them. -/
def goalObs (data : List Record) (cat : String) (a b : Int) : List Record :=
  data.filter fun r =>
    r.category == cat && (decide (a ≤ r.week ∧ r.week ≤ b) && r.type == "Mål")

/-- The outcome observations of one category clipped to a period range. -/
def outcomeObs (data : List Record) (cat : String) (a b : Int) : List Record :=
  data.filter fun r =>
    r.category == cat && (decide (a ≤ r.week ∧ r.week ≤ b) && r.type == "Utfall")

/-- The end-to-end grid of the spec's scenario (§8): header `["",15,16,17]`,
then a goal row and an outcome row for `Sales`. -/
def c1grid : Grid :=
  [["", "15", "16", "17"],
   ["", "Mål: Sales", "100", "", "100"],
   ["", "Utfall: Sales", "10", "20", ""]]

/-- Goal observations only at periods 2 and 4, the spec's forward-fill
scenario for range `[1, 5]`. -/
def c2data : List Record := [⟨2, "X", "Mål", 7⟩, ⟨4, "X", "Mål", 9⟩]

/-- A grid whose first row has two week-number cells but only two columns,
followed by a longer qualifying row. -/
def c4grid : Grid := [["15", "16"], ["", "x", "5", "7"]]

/-- A lone unprefixed known-metric row followed by two unrelated rows. -/
def c5grid : Grid :=
  [["", "w", "1", "2"],
   ["", "Bokade möten", "5", ""],
   ["", "X", "", ""],
   ["", "Y", "", ""]]

/-- A category with outcome observations only. -/
def c6data : List Record := [⟨2, "Y", "Utfall", 5⟩]

/-- A 56-column grid with no locatable week header: the degraded-mode mapping
assigns periods 1..54 to columns 2..55, and the goal row has a value in the
last column. -/
def c7grid : Grid :=
  List.replicate 56 "" :: [["", "Mål: X"] ++ List.replicate 53 "" ++ ["100"]]

/-- A small grid with a located header, used to instantiate the period-bound
theorem. -/
def c7wgrid : Grid := [["", "5", "6"], ["", "Mål: A", "2"]]

/-- A grid with one unparseable value cell (`"x2"`). -/
def c8wgrid : Grid := [["", "5", "6"], ["", "Mål: A", "x2"]]

/-- A grid with one value cell that normalizes to the literal `"0"`. -/
def c3wgrid : Grid := [["", "5", "6"], ["", "Mål: A", " 0"]]

/-! ## Helper lemmas: where records come from -/

lemma mem_cellRecords {pairs : List (Nat × Int)} {t c : String} {row : List String}
    {r : Record} (h : r ∈ cellRecords pairs t c row) : r.week ∈ pairs.map Prod.snd := by
  rcases List.mem_flatMap.1 h with ⟨cw, hcw, hr⟩
  by_cases hlt : cw.1 < row.length
  · rw [if_pos hlt] at hr
    cases hv : valCell (row.getD cw.1 "") with
    | some q =>
      rw [hv] at hr
      rcases List.mem_singleton.1 hr with rfl
      exact List.mem_map.2 ⟨cw, hcw, rfl⟩
    | none => rw [hv] at hr; cases hr
  · rw [if_neg hlt] at hr; cases hr

lemma mem_rowRecords {g : Grid} {pairs : List (Nat × Int)} {skip i : Nat}
    {row : List String} {r : Record} (h : r ∈ rowRecords g pairs skip i row) :
    r.week ∈ pairs.map Prod.snd := by
  unfold rowRecords at h
  split at h
  · cases h
  · split at h
    · cases h
    · split at h
      · exact mem_cellRecords h
      · split at h
        · exact mem_cellRecords h
        · split at h
          · exact mem_cellRecords h
          · cases h

lemma mem_processRows {g : Grid} {pairs : List (Nat × Int)} {skip : Nat} :
    ∀ {l : List (List String)} {i : Nat} {r : Record},
      r ∈ processRows g pairs skip l i → r.week ∈ pairs.map Prod.snd
  | [], _, _, h => by cases h
  | row :: rest, i, r, h => by
    rw [processRows] at h
    rcases List.mem_append.1 h with h | h
    · exact mem_rowRecords h
    · exact mem_processRows h

lemma weekCell_bounds {c : String} {w : Int} (h : weekCell c = some w) :
    1 ≤ w ∧ w ≤ 53 := by
  unfold weekCell at h
  by_cases hc : c = ""
  · rw [if_pos hc] at h; cases h
  · rw [if_neg hc] at h
    cases hv : pyInt (pyStrip c) with
    | some v =>
      rw [hv] at h
      change (if 1 ≤ v ∧ v ≤ 53 then some v else none) = some w at h
      by_cases hb : 1 ≤ v ∧ v ≤ 53
      · rw [if_pos hb] at h
        obtain rfl : v = w := Option.some_inj.1 h
        exact hb
      · rw [if_neg hb] at h; cases h
    | none =>
      rw [hv] at h
      change (none : Option Int) = some w at h
      cases h

lemma rowWeekPairsAux_bounds :
    ∀ {row : List String} {k : Nat} {p : Nat × Int},
      p ∈ rowWeekPairsAux row k → 1 ≤ p.2 ∧ p.2 ≤ 53
  | [], _, _, h => by cases h
  | c :: rest, k, p, h => by
    rw [rowWeekPairsAux] at h
    rcases List.mem_append.1 h with h | h
    · cases hw : weekCell c with
      | some w =>
        rw [hw] at h
        rcases List.mem_singleton.1 h with rfl
        exact weekCell_bounds hw
      | none => rw [hw] at h; cases h
    · exact rowWeekPairsAux_bounds h

lemma findHeaderAux_bounds :
    ∀ {l : List (List String)} {i : Nat} {pr : Nat × List (Nat × Int)},
      findHeaderAux l i = some pr → ∀ p ∈ pr.2, 1 ≤ p.2 ∧ p.2 ≤ 53
  | [], _, _, h => by cases h
  | row :: rest, i, pr, h => by
    rw [findHeaderAux] at h
    split at h
    · rcases Option.some_inj.1 h with rfl
      exact fun p hp => rowWeekPairsAux_bounds hp
    · exact findHeaderAux_bounds h

lemma fallback_pair_bounds {n : Nat} {p : Nat × Int} (h : p ∈ fallbackPairs n) :
    1 ≤ p.2 ∧ p.2 ≤ (n : Int) - 2 := by
  unfold fallbackPairs at h
  have h2 := (List.of_mem_zip h).2
  rcases List.mem_map.1 h2 with ⟨m, hm, hmp⟩
  rcases List.mem_range'.1 hm with ⟨k, hk, hmk⟩
  rw [show p.2 = (m : Int) from hmp.symm]
  omega

/-! ## Helper lemmas: the series pipeline -/

lemma zip_map_fst_snd_eq {α β : Type} :
    ∀ l : List (α × β), (l.map Prod.fst).zip (l.map Prod.snd) = l
  | [] => rfl
  | p :: rest => by
    rw [List.map_cons, List.map_cons, List.zip_cons_cons, zip_map_fst_snd_eq rest]

lemma mem_intRange {a b w : Int} (h : a ≤ w ∧ w ≤ b) : w ∈ intRange a b := by
  unfold intRange
  have h1 : (w - a).toNat ∈ List.range (b + 1 - a).toNat := List.mem_range.2 (by omega)
  have h2 : a + (((w - a).toNat : Nat) : Int) = w := by omega
  exact List.mem_map.2 ⟨(w - a).toNat, h1, h2⟩

lemma intRange_length {a b : Int} : (intRange a b).length = (b + 1 - a).toNat := by
  unfold intRange
  rw [List.length_map, List.length_range]

lemma filter_week_length_le {obs : List Record}
    (h : (obs.map (fun r => r.week)).Nodup) (w : Int) :
    (obs.filter fun r => r.week == w).length ≤ 1 := by
  induction obs with
  | nil => simp
  | cons r rest ih =>
    rw [List.map_cons, List.nodup_cons] at h
    rw [List.filter_cons]
    by_cases hw : r.week = w
    · have hrest : rest.filter (fun x => x.week == w) = [] := by
        rw [List.filter_eq_nil_iff]
        intro x hx hxw
        exact h.1 (List.mem_map.2 ⟨x, hx, by rw [eq_of_beq hxw, hw]⟩)
      simp [hw, hrest]
    · rw [if_neg (by simp [hw])]
      exact ih h.2

lemma leftJoinFill_length {weeks : List Int} {obs : List Record}
    (h : ∀ w, (obs.filter fun r => r.week == w).length ≤ 1) :
    (leftJoinFill weeks obs).length = weeks.length := by
  induction weeks with
  | nil => rfl
  | cons w ws ih =>
    unfold leftJoinFill at ih ⊢
    rw [List.flatMap_cons, List.length_append, ih, List.length_cons]
    have hone : (if obs.filter (fun r => r.week == w) = [] then [((w : Int), (0 : ℚ))]
        else (obs.filter fun r => r.week == w).map fun r => (w, r.value)).length = 1 := by
      by_cases hms : obs.filter (fun r => r.week == w) = []
      · rw [if_pos hms]; rfl
      · rw [if_neg hms, List.length_map]
        have h1 := h w
        have h2 : (obs.filter fun r => r.week == w).length ≠ 0 :=
          fun hc => hms (List.length_eq_zero.1 hc)
        omega
    omega

lemma leftJoinFill_mem_zero {weeks : List Int} {obs : List Record} {w : Int}
    (hw : w ∈ weeks) (hnone : obs.filter (fun r => r.week == w) = []) :
    (w, (0 : ℚ)) ∈ leftJoinFill weeks obs := by
  unfold leftJoinFill
  refine List.mem_flatMap.2 ⟨w, hw, ?_⟩
  rw [if_pos hnone]
  exact List.mem_singleton.2 rfl

lemma leftJoinFill_mem_val {weeks : List Int} {obs : List Record} {w : Int}
    {r : Record} (hw : w ∈ weeks) (hr : r ∈ obs) (hrw : r.week = w) :
    (w, r.value) ∈ leftJoinFill weeks obs := by
  unfold leftJoinFill
  refine List.mem_flatMap.2 ⟨w, hw, ?_⟩
  have hmem : r ∈ obs.filter (fun x => x.week == w) :=
    List.mem_filter.2 ⟨hr, by simp [hrw]⟩
  have hne : obs.filter (fun x => x.week == w) ≠ [] := by
    intro hc; rw [hc] at hmem; cases hmem
  rw [if_neg hne]
  exact List.mem_map.2 ⟨r, hmem, rfl⟩

lemma goalDf_perm (data : List Record) (cat : String) (a b : Int) :
    (goalDf data cat a b).Perm (goalObs data cat a b) := by
  unfold goalDf clippedData catData goalObs prepare_data
  rw [List.filter_filter, List.filter_filter]
  refine List.Perm.trans (List.Perm.filter _ (List.perm_insertionSort recLE data)) ?_
  rw [List.filter_congr (fun x _ => ?_)]
  cases h1 : x.category == cat <;>
    cases h2 : decide (a ≤ x.week ∧ x.week ≤ b) <;>
      cases h3 : x.type == "Mål" <;> simp [h1, h2, h3]

lemma outcomeDf_perm (data : List Record) (cat : String) (a b : Int) :
    (outcomeDf data cat a b).Perm (outcomeObs data cat a b) := by
  unfold outcomeDf clippedData catData outcomeObs prepare_data
  rw [List.filter_filter, List.filter_filter]
  refine List.Perm.trans (List.Perm.filter _ (List.perm_insertionSort recLE data)) ?_
  rw [List.filter_congr (fun x _ => ?_)]
  cases h1 : x.category == cat <;>
    cases h2 : decide (a ≤ x.week ∧ x.week ≤ b) <;>
      cases h3 : x.type == "Utfall" <;> simp [h1, h2, h3]

lemma perm_eq_nil_iff {α : Type} {l₁ l₂ : List α} (h : l₁.Perm l₂) :
    l₁ = [] ↔ l₂ = [] := by
  rw [← List.length_eq_zero, ← List.length_eq_zero, h.length_eq]

lemma goalObs_eq_nil_of_catData {data : List Record} {cat : String} {a b : Int}
    (h : catData data cat = []) : goalObs data cat a b = [] := by
  unfold catData at h
  rw [List.filter_eq_nil_iff] at h
  unfold goalObs
  rw [List.filter_eq_nil_iff]
  intro x hx hc
  have hx2 : x ∈ prepare_data data := ((List.perm_insertionSort recLE data).mem_iff).2 hx
  have := h x hx2
  rw [Bool.and_eq_true] at hc
  exact this hc.1

lemma outcomeObs_eq_nil_of_catData {data : List Record} {cat : String} {a b : Int}
    (h : catData data cat = []) : outcomeObs data cat a b = [] := by
  unfold catData at h
  rw [List.filter_eq_nil_iff] at h
  unfold outcomeObs
  rw [List.filter_eq_nil_iff]
  intro x hx hc
  have hx2 : x ∈ prepare_data data := ((List.perm_insertionSort recLE data).mem_iff).2 hx
  have := h x hx2
  rw [Bool.and_eq_true] at hc
  exact this hc.1

lemma catData_ne_nil_of_goalDf {data : List Record} {cat : String} {a b : Int}
    (h : goalDf data cat a b ≠ []) : catData data cat ≠ [] := by
  intro hc
  apply h
  unfold goalDf clippedData
  rw [hc]
  rfl

lemma catData_ne_nil_of_outcomeDf {data : List Record} {cat : String} {a b : Int}
    (h : outcomeDf data cat a b ≠ []) : catData data cat ≠ [] := by
  intro hc
  apply h
  unfold outcomeDf clippedData
  rw [hc]
  rfl

/-! ## Helper lemmas: header-locator equivalence -/

lemma findHeaderAux_eq_find :
    ∀ (l : List (List String)) (i : Nat),
      findHeaderAux l i =
        ((List.enumFrom i l).find? fun p =>
            decide (2 < p.2.length) && decide (2 ≤ (rowWeekPairs p.2).length)).map
          fun p => (p.1, rowWeekPairs p.2)
  | [], _ => rfl
  | row :: rest, i => by
    rw [findHeaderAux, List.enumFrom_cons]
    by_cases hq : 2 < row.length ∧ 2 ≤ (rowWeekPairs row).length
    · rw [if_pos hq, List.find?_cons_of_pos _ (by simp [hq.1, hq.2])]
      rfl
    · rw [if_neg hq, List.find?_cons_of_neg _ (by
        simp only [Bool.and_eq_true, decide_eq_true_eq]
        exact hq)]
      exact findHeaderAux_eq_find rest (i + 1)

/-! ## Helper lemmas: relabeling invariance of the series pipeline -/

lemma recLE_relabel (c : String) (x y : Record) :
    recLE { x with category := c } { y with category := c } ↔ recLE x y := Iff.rfl

lemma orderedInsert_relabel (c : String) (x : Record) :
    ∀ l : List Record,
      (l.map fun r => { r with category := c }).orderedInsert recLE { x with category := c } =
        (l.orderedInsert recLE x).map fun r => { r with category := c }
  | [] => rfl
  | y :: t => by
    rw [List.map_cons, List.orderedInsert, List.orderedInsert]
    by_cases h : recLE x y
    · rw [if_pos ((recLE_relabel c x y).2 h), if_pos h, List.map_cons, List.map_cons]
    · rw [if_neg (fun hc => h ((recLE_relabel c x y).1 hc)), if_neg h, List.map_cons,
        orderedInsert_relabel c x t]

lemma insertionSort_relabel (c : String) :
    ∀ d : List Record,
      (d.map fun r => { r with category := c }).insertionSort recLE =
        (d.insertionSort recLE).map fun r => { r with category := c }
  | [] => rfl
  | x :: t => by
    rw [List.map_cons, List.insertionSort, List.insertionSort, insertionSort_relabel c t,
      orderedInsert_relabel c x]

lemma leftJoinFill_relabel (weeks : List Int) (c : String) (obs : List Record) :
    leftJoinFill weeks (obs.map fun r => { r with category := c }) = leftJoinFill weeks obs := by
  unfold leftJoinFill
  refine congrArg (List.flatMap weeks) (funext fun w => ?_)
  rw [List.filter_map]
  have hpf : ((fun r : Record => r.week == w) ∘ fun r : Record => { r with category := c }) =
      fun r : Record => r.week == w := rfl
  rw [hpf]
  by_cases hq : obs.filter (fun r => r.week == w) = []
  · rw [hq]
    rfl
  · rw [if_neg (fun hc => hq (List.map_eq_nil_iff.1 hc)), if_neg hq, List.map_map]
    rfl

lemma catData_relabel (d : List Record) (c : String) :
    catData (d.map fun r => { r with category := c }) c =
      (d.insertionSort recLE).map fun r => { r with category := c } := by
  unfold catData prepare_data
  rw [insertionSort_relabel c d]
  exact List.filter_eq_self.2 fun a ha => by
    rcases List.mem_map.1 ha with ⟨x, _, rfl⟩
    simp

lemma goalDf_relabel (d : List Record) (c : String) (a b : Int) :
    goalDf (d.map fun r => { r with category := c }) c a b =
      (goalCore d a b).map fun r => { r with category := c } := by
  unfold goalDf clippedData goalCore sortedClipped
  rw [catData_relabel, List.filter_map, List.filter_map]
  rfl

lemma outcomeDf_relabel (d : List Record) (c : String) (a b : Int) :
    outcomeDf (d.map fun r => { r with category := c }) c a b =
      (outcomeCore d a b).map fun r => { r with category := c } := by
  unfold outcomeDf clippedData outcomeCore sortedClipped
  rw [catData_relabel, List.filter_map, List.filter_map]
  rfl

lemma goalX_relabel (d : List Record) (c : String) (a b : Int) :
    goalX (d.map fun r => { r with category := c }) c a b = goalXCore d a b := by
  unfold goalX goalXCore
  rw [goalDf_relabel]
  by_cases hg : goalCore d a b = []
  · rw [hg]
    rfl
  · rw [if_neg (fun hc => hg (List.map_eq_nil_iff.1 hc)), if_neg hg, leftJoinFill_relabel]

lemma goalY_relabel (d : List Record) (c : String) (a b : Int) :
    goalY (d.map fun r => { r with category := c }) c a b = goalYCore d a b := by
  unfold goalY goalYCore
  rw [goalDf_relabel]
  by_cases hg : goalCore d a b = []
  · rw [hg]
    rfl
  · rw [if_neg (fun hc => hg (List.map_eq_nil_iff.1 hc)), if_neg hg, leftJoinFill_relabel]

lemma outcomeX_relabel (d : List Record) (c : String) (a b : Int) :
    outcomeX (d.map fun r => { r with category := c }) c a b = outcomeXCore d a b := by
  unfold outcomeX outcomeXCore
  rw [outcomeDf_relabel, goalX_relabel]
  by_cases ho : outcomeCore d a b = []
  · rw [if_pos (by rw [ho]; rfl), if_pos ho]
  · rw [if_neg (fun hc => ho (List.map_eq_nil_iff.1 hc)), if_neg ho, leftJoinFill_relabel]

lemma outcomeY_relabel (d : List Record) (c : String) (a b : Int) :
    outcomeY (d.map fun r => { r with category := c }) c a b = outcomeYCore d a b := by
  unfold outcomeY outcomeYCore
  rw [outcomeDf_relabel, goalX_relabel]
  by_cases ho : outcomeCore d a b = []
  · rw [if_pos (by rw [ho]; rfl), if_pos ho]
  · rw [if_neg (fun hc => ho (List.map_eq_nil_iff.1 hc)), if_neg ho, leftJoinFill_relabel]

lemma create_relabel (d : List Record) (c : String) (xr : Int × Int) :
    create_metric_comparison (d.map fun r => { r with category := c }) c xr =
      seriesCore d xr := by
  unfold create_metric_comparison seriesCore
  rw [catData_relabel]
  by_cases hs : d.insertionSort recLE = []
  · rw [if_pos (by rw [hs]; rfl), if_pos hs]
  · rw [if_neg (fun hc => hs (List.map_eq_nil_iff.1 hc)), if_neg hs,
      goalX_relabel, goalY_relabel, outcomeX_relabel, outcomeY_relabel]

/-! ## Helper lemmas: inert-cell replacement

A cell that contributes neither to the week-header scan nor to any value read
can be blanked without changing the parse. These lemmas track every read the
parser performs on a cell. -/

lemma getD_set_ne {l : List String} {i k : Nat} (b : String) (h : i ≠ k) :
    (l.set i b).getD k "" = l.getD k "" := by
  rw [List.getD_eq_getElem?_getD, List.getD_eq_getElem?_getD, List.getElem?_set_ne h]

lemma getD_set_self {l : List String} {i : Nat} (b : String) (h : i < l.length) :
    (l.set i b).getD i "" = b := by
  rw [List.getD_eq_getElem?_getD, List.getElem?_set_self h]
  rfl

lemma rowAt_setCell_self (g : Grid) (i j : Nat) (b : String) :
    rowAt (setCell g i j b) i = (rowAt g i).set j b := by
  by_cases hi : i < g.length
  · unfold setCell rowAt
    rw [List.getD_eq_getElem?_getD, List.getElem?_set_self hi]
    rfl
  · have hge : g.length ≤ i := le_of_not_lt hi
    have hnil : rowAt g i = [] := by
      unfold rowAt
      rw [List.getD_eq_getElem?_getD, List.getElem?_eq_none hge]
      rfl
    unfold setCell
    rw [List.set_eq_of_length_le hge, hnil]
    rfl

lemma rowAt_setCell_ne (g : Grid) (i j : Nat) (b : String) {k : Nat} (h : k ≠ i) :
    rowAt (setCell g i j b) k = rowAt g k := by
  unfold setCell rowAt
  rw [List.getD_eq_getElem?_getD, List.getD_eq_getElem?_getD,
    List.getElem?_set_ne (Ne.symm h)]
  rw [List.getD_eq_getElem?_getD]

lemma length_setCell (g : Grid) (i j : Nat) (b : String) :
    (setCell g i j b).length = g.length := by
  unfold setCell
  rw [List.length_set]

lemma rowLabelOf_set {row : List String} {j : Nat} (b : String) (hj : j ≠ 1) :
    rowLabelOf (row.set j b) = rowLabelOf row := by
  unfold rowLabelOf
  rw [getD_set_ne b hj]

lemma rowWeekPairsAux_set {b : String} :
    ∀ (row : List String) (j k : Nat),
      weekCell (row.getD j "") = weekCell b →
      rowWeekPairsAux (row.set j b) k = rowWeekPairsAux row k
  | [], _, _, _ => rfl
  | c :: rest, 0, k, h => by
    have hc : weekCell c = weekCell b := h
    rw [List.set_cons_zero, rowWeekPairsAux, rowWeekPairsAux, ← hc]
  | c :: rest, j + 1, k, h => by
    rw [List.set_cons_succ, rowWeekPairsAux, rowWeekPairsAux,
      rowWeekPairsAux_set rest j (k + 1) h]

lemma cellRecords_set {b : String} (pairs : List (Nat × Int)) (t c : String)
    (row : List String) (j : Nat) (h : valCell (row.getD j "") = valCell b) :
    cellRecords pairs t c (row.set j b) = cellRecords pairs t c row := by
  unfold cellRecords
  refine congrArg (List.flatMap pairs) (funext fun cw => ?_)
  rw [List.length_set]
  by_cases hcw : cw.1 < row.length
  · rw [if_pos hcw, if_pos hcw]
    by_cases hj2 : cw.1 = j
    · subst hj2
      rw [getD_set_self b hcw, ← h]
    · rw [getD_set_ne b fun he => hj2 he.symm]
  · rw [if_neg hcw, if_neg hcw]

lemma forall2_set_grid {R : List String → List String → Prop} (hrefl : ∀ r, R r r) :
    ∀ (g : Grid) (i : Nat) (x : List String), R x (rowAt g i) →
      List.Forall₂ R (g.set i x) g
  | [], _, _, _ => List.Forall₂.nil
  | row :: rest, 0, x, hx => by
    rw [List.set_cons_zero]
    exact List.Forall₂.cons hx (List.forall₂_same.2 fun y _ => hrefl y)
  | row :: rest, i + 1, x, hx => by
    rw [List.set_cons_succ]
    exact List.Forall₂.cons (hrefl row) (forall2_set_grid hrefl rest i x hx)

lemma findHeaderAux_congr {l' l : List (List String)}
    (h : List.Forall₂ (fun r' r => r'.length = r.length ∧ rowWeekPairs r' = rowWeekPairs r)
      l' l) :
    ∀ k, findHeaderAux l' k = findHeaderAux l k := by
  induction h with
  | nil => intro k; rfl
  | @cons a b l₁ l₂ hr hrest ih =>
    intro k
    rw [findHeaderAux, findHeaderAux, hr.1, hr.2]
    by_cases hq : 2 < b.length ∧ 2 ≤ (rowWeekPairs b).length
    · rw [if_pos hq, if_pos hq]
    · rw [if_neg hq, if_neg hq]
      exact ih (k + 1)

lemma rowRecords_congr {g' g : Grid} {pairs : List (Nat × Int)} {skip : Nat}
    (hinfer : ∀ jj lbl, inferIsGoal g' jj lbl = inferIsGoal g jj lbl)
    (k : Nat) {r' r : List String}
    (hlen : r'.length = r.length) (hlbl : rowLabelOf r' = rowLabelOf r)
    (hcell : ∀ t c, cellRecords pairs t c r' = cellRecords pairs t c r) :
    rowRecords g' pairs skip k r' = rowRecords g pairs skip k r := by
  have hnil : (r' = []) = (r = []) := propext (by
    rw [← List.length_eq_zero, ← List.length_eq_zero, hlen])
  unfold rowRecords
  simp only [hlen, hlbl, hnil, hcell, hinfer]

lemma processRows_congr {g' g : Grid} {pairs : List (Nat × Int)} {skip : Nat}
    (hinfer : ∀ jj lbl, inferIsGoal g' jj lbl = inferIsGoal g jj lbl)
    {l' l : List (List String)}
    (h : List.Forall₂ (fun r' r => r'.length = r.length ∧ rowLabelOf r' = rowLabelOf r ∧
      ∀ t c, cellRecords pairs t c r' = cellRecords pairs t c r) l' l) :
    ∀ k, processRows g' pairs skip l' k = processRows g pairs skip l k := by
  induction h with
  | nil => intro k; rfl
  | @cons a b l₁ l₂ hr hrest ih =>
    intro k
    rw [processRows, processRows, rowRecords_congr hinfer k hr.1 hr.2.1 hr.2.2, ih (k + 1)]

lemma inferIsGoal_setCell (g : Grid) (i j : Nat) (b : String) (hj : j ≠ 1)
    (jj : Nat) (lbl : String) :
    inferIsGoal (setCell g i j b) jj lbl = inferIsGoal g jj lbl := by
  have hglen : ∀ m : Nat, (m < (setCell g i j b).length) = (m < g.length) := fun m => by
    rw [length_setCell]
  have hrlen : ∀ k, (rowAt (setCell g i j b) k).length = (rowAt g k).length := fun k => by
    by_cases hk : k = i
    · subst hk
      rw [rowAt_setCell_self, List.length_set]
    · rw [rowAt_setCell_ne g i j b hk]
  have hne : ∀ k, (rowAt (setCell g i j b) k ≠ []) = (rowAt g k ≠ []) := fun k => by
    have h1 : (rowAt (setCell g i j b) k = []) = (rowAt g k = []) := propext (by
      rw [← List.length_eq_zero, ← List.length_eq_zero, hrlen k])
    show (¬ rowAt (setCell g i j b) k = []) = (¬ rowAt g k = [])
    rw [h1]
  have hlen1 : ∀ k, (1 < (rowAt (setCell g i j b) k).length) = (1 < (rowAt g k).length) :=
    fun k => by rw [hrlen k]
  have hlbl : ∀ k, labelAt (setCell g i j b) k = labelAt g k := fun k => by
    by_cases hk : k = i
    · subst hk
      unfold labelAt
      rw [rowAt_setCell_self, rowLabelOf_set b hj]
    · unfold labelAt
      rw [rowAt_setCell_ne g i j b hk]
  unfold inferIsGoal
  simp only [hglen, hne, hlen1, hlbl]

lemma process_data_setCell (g : Grid) (i j : Nat) (hj : j ≠ 1)
    (hwk : weekCell ((rowAt g i).getD j "") = none)
    (hvl : valCell ((rowAt g i).getD j "") = none) :
    process_data (setCell g i j "") = process_data g := by
  have hwk2 : weekCell ((rowAt g i).getD j "") = weekCell "" := hwk
  have hvl2 : valCell ((rowAt g i).getD j "") = valCell "" := hvl
  have hF : ∀ pairs : List (Nat × Int), List.Forall₂
      (fun r' r => r'.length = r.length ∧ rowLabelOf r' = rowLabelOf r ∧
        ∀ t c, cellRecords pairs t c r' = cellRecords pairs t c r)
      (setCell g i j "") g := fun pairs =>
    forall2_set_grid (fun r => ⟨rfl, rfl, fun _ _ => rfl⟩) g i _
      ⟨List.length_set _ _ _, rowLabelOf_set "" hj,
        fun t c => cellRecords_set pairs t c (rowAt g i) j hvl2⟩
  have hFh : List.Forall₂
      (fun r' r => r'.length = r.length ∧ rowWeekPairs r' = rowWeekPairs r)
      ((setCell g i j "").take 10) (g.take 10) := by
    refine List.forall₂_take 10 ?_
    exact forall2_set_grid (fun r => ⟨rfl, rfl⟩) g i _
      ⟨List.length_set _ _ _, rowWeekPairsAux_set (rowAt g i) j 0 hwk2⟩
  have hheader : findWeekHeader (setCell g i j "") = findWeekHeader g := by
    unfold findWeekHeader
    exact findHeaderAux_congr hFh 0
  have hinfer : ∀ jj lbl, inferIsGoal (setCell g i j "") jj lbl = inferIsGoal g jj lbl :=
    inferIsGoal_setCell g i j "" hj
  have hlen0 : (rowAt (setCell g i j "") 0).length = (rowAt g 0).length := by
    by_cases h0 : (0 : Nat) = i
    · rw [← h0, rowAt_setCell_self, List.length_set]
    · rw [rowAt_setCell_ne g i j "" h0]
  unfold process_data
  rw [hheader, length_setCell, hlen0]
  by_cases hlt : g.length < 1
  · rw [if_pos hlt, if_pos hlt]
  · rw [if_neg hlt, if_neg hlt]
    cases hfw : findWeekHeader g with
    | some hd => exact processRows_congr hinfer (hF hd.2) 0
    | none =>
      show (if 2 < (rowAt g 0).length then
          processRows (setCell g i j "") (fallbackPairs (rowAt g 0).length) 0
            (setCell g i j "") 0
        else []) = (if 2 < (rowAt g 0).length then
          processRows g (fallbackPairs (rowAt g 0).length) 0 g 0 else [])
      by_cases h2 : 2 < (rowAt g 0).length
      · rw [if_pos h2, if_pos h2]
        exact processRows_congr hinfer (hF (fallbackPairs (rowAt g 0).length)) 0
      · rw [if_neg h2, if_neg h2]

/-! ## Helper lemmas: the comma/space normalization and the literal zero -/

lemma replaceAux_single (a : Char) (rep : List Char) :
    ∀ (fuel : Nat) (l : List Char), l.length ≤ fuel →
      replaceAux [a] rep fuel l = l.flatMap fun c => if c = a then rep else [c]
  | 0, l, h => by
    have hl : l = [] := List.length_eq_zero.1 (Nat.le_zero.1 h)
    subst hl
    rfl
  | fuel + 1, [], _ => rfl
  | fuel + 1, c :: rest, h => by
    have hrest : rest.length ≤ fuel := Nat.le_of_succ_le_succ h
    rw [replaceAux]
    by_cases hc : c = a
    · subst hc
      rw [if_pos (by simp [List.isPrefixOf]), List.flatMap_cons, if_pos rfl]
      show rep ++ replaceAux [c] rep fuel rest = _
      rw [replaceAux_single c rep fuel rest hrest]
    · rw [if_neg (by simp [List.isPrefixOf, Ne.symm hc]), List.flatMap_cons, if_neg hc,
        replaceAux_single a rep fuel rest hrest]
      rfl

lemma normValue_data (s : String) :
    (normValue s).data =
      (s.data.flatMap fun c => if c = ',' then ['.'] else [c]).flatMap
        fun c => if c = ' ' then [] else [c] := by
  unfold normValue pyReplace
  show replaceAux [' '] []
      (replaceAux [','] ['.'] s.data.length s.data).length
      (replaceAux [','] ['.'] s.data.length s.data) = _
  rw [replaceAux_single ' ' [] _ _ (le_refl _), replaceAux_single ',' ['.'] _ _ (le_refl _)]

lemma all_space_of_flat_nil :
    ∀ l : List Char,
      ((l.flatMap fun c => if c = ',' then ['.'] else [c]).flatMap
        fun c => if c = ' ' then [] else [c]) = [] →
      ∀ x ∈ l, x = ' '
  | [], _, x, hx => absurd hx (List.not_mem_nil x)
  | c :: rest, h, x, hx => by
    rw [List.flatMap_cons, List.flatMap_append] at h
    rcases List.append_eq_nil.1 h with ⟨h1, h2⟩
    rcases List.mem_cons.1 hx with rfl | hx2
    · by_cases hc : x = ','
      · rw [if_pos hc] at h1
        exact absurd h1 (by decide)
      · rw [if_neg hc] at h1
        by_cases hcs : x = ' '
        · exact hcs
        · exfalso
          have h1x : (if x = ' ' then ([] : List Char) else [x]) = [] := by
            simp only [List.flatMap_cons, List.flatMap_nil, List.append_nil] at h1
            exact h1
          rw [if_neg hcs] at h1x
          cases h1x
    · exact all_space_of_flat_nil rest h2 x hx2

lemma dropWhile_append_space :
    ∀ m : List Char, (∀ x ∈ m, x = ' ') →
      List.dropWhile Char.isWhitespace (m ++ ['0']) = ['0']
  | [], _ => rfl
  | c :: m, h => by
    have hc : c = ' ' := h c (List.mem_cons_self c m)
    subst hc
    rw [List.cons_append, List.dropWhile_cons, if_pos (by decide)]
    exact dropWhile_append_space m fun x hx => h x (List.mem_cons_of_mem _ hx)

lemma strip_data_of_norm_zero :
    ∀ l : List Char,
      ((l.flatMap fun c => if c = ',' then ['.'] else [c]).flatMap
        fun c => if c = ' ' then [] else [c]) = ['0'] →
      ((l.dropWhile Char.isWhitespace).reverse.dropWhile Char.isWhitespace).reverse = ['0']
  | [], h => absurd h (by decide)
  | c :: rest, h => by
    rw [List.flatMap_cons, List.flatMap_append] at h
    by_cases hsp : c = ' '
    · subst hsp
      have hsp2 : ((if (' ' : Char) = ',' then (['.'] : List Char) else [' ']).flatMap
          fun c => if c = ' ' then ([] : List Char) else [c]) = [] := rfl
      rw [hsp2, List.nil_append] at h
      rw [List.dropWhile_cons, if_pos (by decide)]
      exact strip_data_of_norm_zero rest h
    · by_cases hcm : c = ','
      · subst hcm
        rw [if_pos rfl] at h
        have h3 : ('.' :: ((rest.flatMap fun c => if c = ',' then ['.'] else [c]).flatMap
            fun c => if c = ' ' then [] else [c])) = ['0'] := by
          simp only [List.flatMap_cons, List.flatMap_nil, List.append_nil] at h
          exact h
        injection h3 with h4 h5
        exact absurd h4 (by decide)
      · rw [if_neg hcm] at h
        have h3 : (c :: ((rest.flatMap fun c => if c = ',' then ['.'] else [c]).flatMap
            fun c => if c = ' ' then [] else [c])) = ['0'] := by
          simpa [hsp] using h
        injection h3 with h4 h5
        subst h4
        have hall : ∀ x ∈ rest, x = ' ' := all_space_of_flat_nil rest h5
        rw [List.dropWhile_cons, if_neg (by decide), List.reverse_cons,
          dropWhile_append_space rest.reverse fun x hx => hall x (List.mem_reverse.1 hx)]
        rfl

lemma pyStrip_of_norm_zero {s : String} (h : normValue s = "0") : pyStrip s = "0" := by
  have hd := normValue_data s
  rw [h] at hd
  unfold pyStrip
  exact congrArg String.mk (strip_data_of_norm_zero s.data hd.symm)

/-! ## Claim theorems: concrete scenarios -/

/-- C1, counterexample. The spec's end-to-end scenario claims the observation
(period 15, Sales, Goal, 100); the parser never emits it for that grid (the
header places week 15 at column 1, which in the data rows holds the label). -/
theorem c1_spec_refuted :
    (⟨15, "Sales", "Mål", (100 : ℚ)⟩ : Record) ∉ process_data c1grid := by decide

/-- C1, amended. On the scenario grid the parser emits exactly
(16, Sales, Goal, 100), (16, Sales, Outcome, 10) and (17, Sales, Outcome, 20),
and normalizing Sales over `[15, 17]` yields the goal array `[0, 100, 0]` and
the outcome array `[0, 10, 20]`: gaps are zero-filled, with no forward fill. -/
theorem c1_end_to_end :
    process_data c1grid =
      [⟨16, "Sales", "Mål", 100⟩, ⟨16, "Sales", "Utfall", 10⟩, ⟨17, "Sales", "Utfall", 20⟩] ∧
    create_metric_comparison (process_data c1grid) "Sales" (15, 17) =
      ⟨[15, 16, 17], [0, 100, 0], [15, 16, 17], [0, 10, 20]⟩ := by
  constructor <;> decide

/-- C2, counterexample. With goal observations only at periods 2 (value 7) and
4 over the range `[1, 5]`, the claim says period 3 carries period 2's value 7
and periods 1 and 5 are absent; in fact period 3 carries 0, and periods 1 and
5 are present with value 0. -/
theorem c2_spec_refuted :
    ((3 : Int), (7 : ℚ)) ∉
      ((create_metric_comparison c2data "X" (1, 5)).goal_x.zip
        (create_metric_comparison c2data "X" (1, 5)).goal_y) ∧
    ((3 : Int), (0 : ℚ)) ∈
      ((create_metric_comparison c2data "X" (1, 5)).goal_x.zip
        (create_metric_comparison c2data "X" (1, 5)).goal_y) ∧
    ((1 : Int), (0 : ℚ)) ∈
      ((create_metric_comparison c2data "X" (1, 5)).goal_x.zip
        (create_metric_comparison c2data "X" (1, 5)).goal_y) ∧
    ((5 : Int), (0 : ℚ)) ∈
      ((create_metric_comparison c2data "X" (1, 5)).goal_x.zip
        (create_metric_comparison c2data "X" (1, 5)).goal_y) := by
  refine ⟨?_, ?_, ?_, ?_⟩ <;> decide

/-- C2, amended. Goal gaps are filled with zero across the entire requested
range: when a category has a goal observation in range, every period of
`[a, b]` without a goal observation appears on the goal axis with value 0
(boundary periods included, none left absent), and every period with a goal
observation keeps that observation's value. -/
theorem c2_goal_zero_fill (data : List Record) (cat : String) (a b w : Int)
    (hw : a ≤ w ∧ w ≤ b) (hne : goalObs data cat a b ≠ []) :
    (w ∉ (goalObs data cat a b).map (fun r => r.week) →
      (w, (0 : ℚ)) ∈ ((create_metric_comparison data cat (a, b)).goal_x.zip
        (create_metric_comparison data cat (a, b)).goal_y)) ∧
    (∀ r ∈ goalObs data cat a b, r.week = w →
      (w, r.value) ∈ ((create_metric_comparison data cat (a, b)).goal_x.zip
        (create_metric_comparison data cat (a, b)).goal_y)) := by
  have hperm := goalDf_perm data cat a b
  have hgd : goalDf data cat a b ≠ [] := fun hc => hne ((perm_eq_nil_iff hperm).1 hc)
  have hcat : catData data cat ≠ [] := catData_ne_nil_of_goalDf hgd
  have hcreate : create_metric_comparison data cat (a, b) =
      ⟨goalX data cat a b, goalY data cat a b,
       outcomeX data cat a b, outcomeY data cat a b⟩ := by
    unfold create_metric_comparison
    rw [if_neg hcat]
  have hzip : (goalX data cat a b).zip (goalY data cat a b) =
      leftJoinFill (intRange a b) (goalDf data cat a b) := by
    unfold goalX goalY
    rw [if_neg hgd, if_neg hgd, zip_map_fst_snd_eq]
  rw [hcreate]
  dsimp only
  rw [hzip]
  constructor
  · intro hmiss
    have hfilter : (goalDf data cat a b).filter (fun x => x.week == w) = [] := by
      rw [List.filter_eq_nil_iff]
      intro x hx hxw
      exact hmiss (List.mem_map.2 ⟨x, hperm.subset hx, eq_of_beq hxw⟩)
    exact leftJoinFill_mem_zero (mem_intRange hw) hfilter
  · intro r hr hrw
    exact leftJoinFill_mem_val (mem_intRange hw) (hperm.symm.subset hr) hrw

/-- C2 witness: the theorem applied at goals only at periods 2 and 4 over
`[1, 5]`, at period 1. -/
theorem c2_goal_zero_fill_witness :
    ((1 : Int) ∉ (goalObs c2data "X" 1 5).map (fun r => r.week) →
      ((1 : Int), (0 : ℚ)) ∈ ((create_metric_comparison c2data "X" (1, 5)).goal_x.zip
        (create_metric_comparison c2data "X" (1, 5)).goal_y)) ∧
    (∀ r ∈ goalObs c2data "X" 1 5, r.week = 1 →
      ((1 : Int), r.value) ∈ ((create_metric_comparison c2data "X" (1, 5)).goal_x.zip
        (create_metric_comparison c2data "X" (1, 5)).goal_y)) :=
  c2_goal_zero_fill c2data "X" 1 5 1 (by decide) (by decide)

/-- C4, counterexample. In `c4grid` the first row is the first row with at
least 2 cells parsing as integers in `[1, 53]`, yet the locator selects the
second row: the source additionally requires a row to have more than 2
cells. -/
theorem c4_spec_refuted :
    rowWeekPairs ["15", "16"] = [(0, 15), (1, 16)] ∧
    findWeekHeader c4grid = some (1, [(2, 5), (3, 7)]) := by
  constructor <;> decide

/-- C4, amended. The locator selects the first row among the first 10 that
has more than 2 cells and contains at least 2 cells parsing as integers in
`[1, 53]`, recording those cells' (column, period) pairs in order of
encounter (stated as an equivalence with the independently worded selection
rule `locate_header_spec`); and when no row qualifies and the first row has
at most 2 columns, the parse returns an empty record set instead of applying
a default mapping. -/
theorem c4_header_locator :
    (∀ g : Grid, findWeekHeader g = locate_header_spec g) ∧
    (∀ g : Grid, findWeekHeader g = none → (rowAt g 0).length ≤ 2 →
      process_data g = []) := by
  constructor
  · intro g
    unfold findWeekHeader locate_header_spec
    rw [findHeaderAux_eq_find]
    rfl
  · intro g hh hlen
    unfold process_data
    by_cases hg : g.length < 1
    · rw [if_pos hg]
    · rw [if_neg hg, hh]
      show (if 2 < (rowAt g 0).length then processRows g (fallbackPairs (rowAt g 0).length) 0 g 0
        else []) = []
      rw [if_neg (by omega)]

/-- C4 witness: the theorem applied at a one-row, two-column grid. -/
theorem c4_header_locator_witness :
    findWeekHeader [["a", "b"]] = locate_header_spec [["a", "b"]] ∧
      process_data [["a", "b"]] = [] :=
  ⟨c4_header_locator.1 [["a", "b"]],
   c4_header_locator.2 [["a", "b"]] (by decide) (by decide)⟩

/-- C9. Polarity is a pure substring test on the lowercased category name
(`true` on a marked name, `false` otherwise), and it never alters the stored
series values: relabeling the same observations to any two category names —
in particular one of each polarity — yields identical goal and outcome
arrays. -/
theorem c9_polarity_frame :
    is_lower_better "Utgifter SEK eller lägre" = true ∧
      is_lower_better "Bokade möten" = false ∧
      ∀ (d : List Record) (c c' : String) (xr : Int × Int),
        create_metric_comparison (d.map fun r => { r with category := c }) c xr =
          create_metric_comparison (d.map fun r => { r with category := c' }) c' xr := by
  refine ⟨by decide, by decide, fun d c c' xr => ?_⟩
  rw [create_relabel, create_relabel]

/-- C5, evaluation at the failing input. The lone known-metric row
`"Bokade möten"` of `c5grid` has no adjacent row sharing its label, so the
claim (and the source's comments) say it defaults to Goal; the code classifies
it as Outcome, because `row_idx` has already been incremented: it compares
against the row two below and against the row itself. -/
theorem c5_divergence_eval :
    process_data c5grid = [⟨1, "Bokade möten", "Utfall", 5⟩] := by decide

/-- C3. A cell (outside the label column) whose comma/space-normalized
content is the literal `"0"` is inert: blanking it leaves the entire parse
unchanged, so the parser never emits a record for such a cell — neither as a
value (the zero-skip check drops it) nor as a week-header entry (it parses to
0, outside `[1, 53]`). The quantification over all grids, rows and columns
covers every classified data row and every header (column, period) pair; at
the label column the hypothesis is impossible for a classified row, since a
label normalizing to `"0"` matches no prefix and no known metric. -/
theorem c3_zero_cell_inert (g : Grid) (i j : Nat) (hj : j ≠ 1)
    (hne : (rowAt g i).getD j "" ≠ "")
    (h0 : normValue ((rowAt g i).getD j "") = "0") :
    process_data (setCell g i j "") = process_data g := by
  apply process_data_setCell g i j hj
  · unfold weekCell
    rw [if_neg hne, pyStrip_of_norm_zero h0]
    rfl
  · unfold valCell
    rw [if_neg hne, if_pos h0]

/-- C3 witness: blanking the `" 0"` cell of `c3wgrid` leaves the parse
unchanged. -/
theorem c3_zero_cell_inert_witness :
    process_data (setCell c3wgrid 1 2 "") = process_data c3wgrid :=
  c3_zero_cell_inert c3wgrid 1 2 (by decide) (by decide) (by decide)

/-- C8. The parser is total and treats malformed data as absent: a grid with
no rows yields the empty record set, and any cell (outside the label column)
that parses neither as an integer week number nor as a float is
interchangeable with an empty cell — skipping it affects nothing else in its
row or in the overall parse, so the result consists exactly of the records of
the parseable cells. -/
theorem c8_unparseable_inert (g : Grid) (i j : Nat) (hj : j ≠ 1)
    (hne : (rowAt g i).getD j "" ≠ "")
    (hint : pyInt (pyStrip ((rowAt g i).getD j "")) = none)
    (hfloat : pyFloat (normValue ((rowAt g i).getD j "")) = none) :
    process_data (setCell g i j "") = process_data g ∧ process_data ([] : Grid) = [] := by
  refine ⟨process_data_setCell g i j hj ?_ ?_, rfl⟩
  · unfold weekCell
    rw [if_neg hne, hint]
    rfl
  · unfold valCell
    rw [if_neg hne]
    have hnz : normValue ((rowAt g i).getD j "") ≠ "0" := by
      intro hc
      rw [hc] at hfloat
      exact absurd hfloat (by decide)
    rw [if_neg hnz]
    exact hfloat

/-- C8 witness: blanking the unparseable `"x2"` cell of `c8wgrid` leaves the
parse unchanged. -/
theorem c8_unparseable_inert_witness :
    process_data (setCell c8wgrid 1 2 "") = process_data c8wgrid ∧
      process_data ([] : Grid) = [] :=
  c8_unparseable_inert c8wgrid 1 2 (by decide) (by decide) (by decide) (by decide)

/-- C6, counterexample. For a category with only an outcome observation, over
range `[1, 3]` the goal arrays are empty rather than of length 3. -/
theorem c6_spec_refuted :
    ¬ ((create_metric_comparison c6data "Y" (1, 3)).goal_y.length = 3 ∧
       (create_metric_comparison c6data "Y" (1, 3)).outcome_y.length = 3) := by
  decide

/-- C6, amended. With per-kind distinct observation periods: each kind's axis
and value array always have equal length; the goal arrays have length
`b - a + 1` exactly when the category has a goal observation in range (else
they are empty); the outcome arrays have length `b - a + 1` exactly when the
category has an outcome or a goal observation in range (else they are
empty). -/
theorem c6_series_lengths (data : List Record) (cat : String) (a b : Int)
    (hab : a ≤ b)
    (hgn : ((goalObs data cat a b).map (fun r => r.week)).Nodup)
    (hon : ((outcomeObs data cat a b).map (fun r => r.week)).Nodup) :
    ((create_metric_comparison data cat (a, b)).goal_x.length =
        (create_metric_comparison data cat (a, b)).goal_y.length) ∧
      ((create_metric_comparison data cat (a, b)).outcome_x.length =
        (create_metric_comparison data cat (a, b)).outcome_y.length) ∧
      (goalObs data cat a b ≠ [] →
        (create_metric_comparison data cat (a, b)).goal_x.length = (b + 1 - a).toNat) ∧
      (goalObs data cat a b = [] →
        (create_metric_comparison data cat (a, b)).goal_x = []) ∧
      ((goalObs data cat a b ≠ [] ∨ outcomeObs data cat a b ≠ []) →
        (create_metric_comparison data cat (a, b)).outcome_x.length = (b + 1 - a).toNat) ∧
      (goalObs data cat a b = [] ∧ outcomeObs data cat a b = [] →
        (create_metric_comparison data cat (a, b)).outcome_x = []) := by
  have hgperm := goalDf_perm data cat a b
  have hoperm := outcomeDf_perm data cat a b
  by_cases hcat : catData data cat = []
  · have hg0 : goalObs data cat a b = [] := goalObs_eq_nil_of_catData hcat
    have ho0 : outcomeObs data cat a b = [] := outcomeObs_eq_nil_of_catData hcat
    have hcreate : create_metric_comparison data cat (a, b) = ⟨[], [], [], []⟩ := by
      unfold create_metric_comparison
      rw [if_pos hcat]
    rw [hcreate]
    refine ⟨rfl, rfl, fun hc => absurd hg0 hc, fun _ => rfl, fun hc => ?_, fun _ => rfl⟩
    rcases hc with hc | hc
    · exact absurd hg0 hc
    · exact absurd ho0 hc
  · have hcreate : create_metric_comparison data cat (a, b) =
        ⟨goalX data cat a b, goalY data cat a b,
         outcomeX data cat a b, outcomeY data cat a b⟩ := by
      unfold create_metric_comparison
      rw [if_neg hcat]
    rw [hcreate]
    dsimp only
    have hGlen : goalDf data cat a b ≠ [] →
        (goalX data cat a b).length = (b + 1 - a).toNat := by
      intro hgd
      unfold goalX
      rw [if_neg hgd, List.length_map,
        leftJoinFill_length (filter_week_length_le
          ((hgperm.map (fun r => r.week)).nodup_iff.2 hgn)), intRange_length]
    have hOlen : outcomeDf data cat a b ≠ [] →
        (outcomeX data cat a b).length = (b + 1 - a).toNat := by
      intro hod
      unfold outcomeX
      rw [if_neg hod, List.length_map,
        leftJoinFill_length (filter_week_length_le
          ((hoperm.map (fun r => r.week)).nodup_iff.2 hon)), intRange_length]
    have hGnil : goalObs data cat a b = [] → goalX data cat a b = [] := by
      intro hg0
      unfold goalX
      rw [if_pos ((perm_eq_nil_iff hgperm).2 hg0)]
    have hGne : goalObs data cat a b ≠ [] → goalX data cat a b ≠ [] := by
      intro hg hc
      have hgd : goalDf data cat a b ≠ [] := fun h0 => hg ((perm_eq_nil_iff hgperm).1 h0)
      have := hGlen hgd
      rw [hc] at this
      simp only [List.length_nil] at this
      omega
    refine ⟨?_, ?_, ?_, hGnil, ?_, ?_⟩
    · unfold goalX goalY
      by_cases hgd : goalDf data cat a b = []
      · rw [if_pos hgd, if_pos hgd]
        rfl
      · rw [if_neg hgd, if_neg hgd, List.length_map, List.length_map]
    · unfold outcomeX outcomeY
      by_cases hod : outcomeDf data cat a b = []
      · rw [if_pos hod, if_pos hod]
        by_cases hgx : goalX data cat a b = []
        · rw [if_pos hgx, if_pos hgx]
          rfl
        · rw [if_neg hgx, if_neg hgx, List.length_replicate]
      · rw [if_neg hod, if_neg hod, List.length_map, List.length_map]
    · intro hg
      exact hGlen fun h0 => hg ((perm_eq_nil_iff hgperm).1 h0)
    · intro hc
      by_cases hod : outcomeDf data cat a b = []
      · have hg : goalObs data cat a b ≠ [] := by
          rcases hc with hc | hc
          · exact hc
          · exact absurd ((perm_eq_nil_iff hoperm).1 hod) hc
        unfold outcomeX
        rw [if_pos hod, if_neg (hGne hg)]
        exact hGlen fun h0 => hg ((perm_eq_nil_iff hgperm).1 h0)
      · exact hOlen hod
    · rintro ⟨hg0, ho0⟩
      unfold outcomeX
      rw [if_pos ((perm_eq_nil_iff hoperm).2 ho0), if_pos (hGnil hg0)]

/-- C6 witness: the theorem applied at the outcome-only category. -/
theorem c6_series_lengths_witness :
    ((create_metric_comparison c6data "Y" (1, 3)).goal_x.length =
        (create_metric_comparison c6data "Y" (1, 3)).goal_y.length) ∧
      ((create_metric_comparison c6data "Y" (1, 3)).outcome_x.length =
        (create_metric_comparison c6data "Y" (1, 3)).outcome_y.length) ∧
      (goalObs c6data "Y" 1 3 ≠ [] →
        (create_metric_comparison c6data "Y" (1, 3)).goal_x.length = ((3 : Int) + 1 - 1).toNat) ∧
      (goalObs c6data "Y" 1 3 = [] →
        (create_metric_comparison c6data "Y" (1, 3)).goal_x = []) ∧
      ((goalObs c6data "Y" 1 3 ≠ [] ∨ outcomeObs c6data "Y" 1 3 ≠ []) →
        (create_metric_comparison c6data "Y" (1, 3)).outcome_x.length = ((3 : Int) + 1 - 1).toNat) ∧
      (goalObs c6data "Y" 1 3 = [] ∧ outcomeObs c6data "Y" 1 3 = [] →
        (create_metric_comparison c6data "Y" (1, 3)).outcome_x = []) :=
  c6_series_lengths c6data "Y" 1 3 (by decide) (by decide) (by decide)

/-- C7, counterexample. Under the degraded-mode default mapping a 56-column
grid yields an observation with period 54, outside `[1, 53]`. -/
theorem c7_spec_refuted :
    ¬ (∀ r ∈ process_data c7grid, 1 ≤ r.week ∧ r.week ≤ 53) := by decide

/-- C7, amended. Every emitted observation has period at least 1; when a week
header row is located every period is at most 53; under the degraded-mode
default mapping the period is at most `N - 2` where `N` is the first row's
column count (and so can exceed 53 only for first rows wider than 55
columns). -/
theorem c7_period_bounds (g : Grid) (r : Record) (hr : r ∈ process_data g) :
    1 ≤ r.week ∧ (findWeekHeader g ≠ none → r.week ≤ 53) ∧
      (findWeekHeader g = none → r.week ≤ ((rowAt g 0).length : Int) - 2) := by
  unfold process_data at hr
  split at hr
  · cases hr
  · split at hr
    next hd hh =>
      have hw := mem_processRows hr
      rcases List.mem_map.1 hw with ⟨p, hp, hpw⟩
      have hb := findHeaderAux_bounds hh p hp
      refine ⟨hpw ▸ hb.1, fun _ => hpw ▸ hb.2, fun hc => ?_⟩
      rw [hh] at hc
      exact Option.noConfusion hc
    next hh =>
      split at hr
      · have hw := mem_processRows hr
        rcases List.mem_map.1 hw with ⟨p, hp, hpw⟩
        have hb := fallback_pair_bounds hp
        exact ⟨hpw ▸ hb.1, fun hc => absurd hh hc, fun _ => hpw ▸ hb.2⟩
      · cases hr

/-- C7 witness: the theorem applied at a concrete grid and record. -/
theorem c7_period_bounds_witness :
    1 ≤ (⟨6, "A", "Mål", (2 : ℚ)⟩ : Record).week ∧
      (findWeekHeader c7wgrid ≠ none → (⟨6, "A", "Mål", (2 : ℚ)⟩ : Record).week ≤ 53) ∧
      (findWeekHeader c7wgrid = none →
        (⟨6, "A", "Mål", (2 : ℚ)⟩ : Record).week ≤ ((rowAt c7wgrid 0).length : Int) - 2) :=
  c7_period_bounds c7wgrid ⟨6, "A", "Mål", 2⟩ (by decide)

/-- C10. The zero-skip test matches only the exact post-normalization string
`"0"`: a classified data row's cell reading `"0.0"` or `"0,0"` at a header
column does produce an observation, and its value is zero. -/
theorem c10_zero_value_records (pairs : List (Nat × Int)) (t c : String)
    (row : List String) (col : Nat) (wk : Int) (hmem : (col, wk) ∈ pairs)
    (hcol : col < row.length)
    (hcell : row.getD col "" = "0.0" ∨ row.getD col "" = "0,0") :
    (⟨wk, c, t, 0⟩ : Record) ∈ cellRecords pairs t c row := by
  refine List.mem_flatMap.2 ⟨(col, wk), hmem, ?_⟩
  have hv : valCell (row.getD col "") = some 0 := by
    rcases hcell with h | h <;> rw [h] <;> decide
  rw [if_pos hcol, hv]
  exact List.mem_singleton.2 rfl

/-- C10 witness: the theorem applied at a concrete row. -/
theorem c10_zero_value_records_witness :
    (⟨1, "X", "Utfall", 0⟩ : Record) ∈
      cellRecords [(2, 1), (3, 2)] "Utfall" "X" ["", "Utfall: X", "0.0", "0,0"] :=
  c10_zero_value_records [(2, 1), (3, 2)] "Utfall" "X" ["", "Utfall: X", "0.0", "0,0"]
    2 1 (by decide) (by decide) (Or.inl (by decide))

end InternDash
